/-
  Verification of the barcode-detection pipeline in mser/mser.py.

  Shallow embedding conventions:
  * Python/numpy floats are modelled as exact rationals (ℚ); quantities the
    source computes in radians via multiplication by np.pi are carried in
    degrees (ℚ) together with the exact conversion thetaRad a = π·a/180 : ℝ,
    so no precision is lost and every radian-level comparison of the source
    is stated literally over ℝ.
  * External collaborators (cv2.minAreaRect + cv2.boxPoints, DBSCAN,
    cv2.warpAffine/MSER) are oracle parameters: the pipeline is verified for
    every possible behaviour of those primitives.
  * Python float `%` with a positive modulus is `qmod`; Python `int()`
    (truncation toward zero) is `pyint`; `np.round` (half-to-even) is
    `npround`; `np.ceil(...).astype(int)` is `Int.ceil`.
-/
import Mathlib

set_option linter.unusedVariables false

/-- Output of cv2.minAreaRect on a point set: `((center_x, center_y),
(width, height), angle)`.  The raw rectangle is an oracle input to the
geometry code. -/
structure RawRect where
  center_x : ℚ
  center_y : ℚ
  width : ℚ
  height : ℚ
  angle : ℚ
deriving DecidableEq

/-- The 7×2 record built by `_get_bounding_box`: rows 0..2 hold
`(center_x, center_y)`, `(width, height)`, `(theta, rho)`, rows 3..6 the
rounded corner points.  `theta` is stored through its exact degree value
`angleDeg` (`theta = π·angleDeg/180`, see `thetaRad`); `rho` is derived
(see `BlobBox.rho`). -/
structure BlobBox where
  center_x : ℚ
  center_y : ℚ
  width : ℚ
  height : ℚ
  angleDeg : ℚ
  corners : List (ℚ × ℚ)
deriving DecidableEq

/-- `Cluster = namedtuple("Cluster", ["number", "count", "color"])`; the
`color` field is a random display colour used only for visualization and
carries no detection-relevant data, so it is omitted from the embedding. -/
structure Cluster where
  number : ℤ
  count : ℕ
deriving DecidableEq

/-- The public output record built by `BarcodeRect.__init__`. -/
structure BarcodeRect where
  center_x : ℚ
  center_y : ℚ
  width : ℤ
  height : ℤ
  theta : ℚ
deriving DecidableEq

/-- The dictionary returned by `BarcodeRect.json`. -/
structure JsonOut where
  center_x : ℚ
  center_y : ℚ
  width : ℤ
  height : ℤ
  theta : ℚ
deriving DecidableEq

/-- Python float `%` for our uses (`x % y` with `y > 0`): the remainder
lies in `[0, y)` and has the divisor's sign convention. -/
def qmod (x y : ℚ) : ℚ := x - y * ⌊x / y⌋

/-- Python `int()` applied to a float: truncation toward zero. -/
def pyint (q : ℚ) : ℤ := if q < 0 then -⌊-q⌋ else ⌊q⌋

/-- `np.round`: round half to even, exact elsewhere. -/
def npround (x : ℚ) : ℤ :=
  if x - ⌊x⌋ = 1 / 2 then (if 2 ∣ ⌊x⌋ then ⌊x⌋ else ⌊x⌋ + 1) else round x

/-- `theta = np.pi * angle / 180` — the exact radian value of a degree
quantity carried in ℚ. -/
noncomputable def thetaRad (a : ℚ) : ℝ := Real.pi * a / 180

/-- The inline normalization `(rect[2] + 90) % 180 - 90` from
`_get_bounding_box`. -/
def normalizeAngle (a : ℚ) : ℚ := qmod (a + 90) 180 - 90

theorem qmod_nonneg (x : ℚ) {y : ℚ} (hy : 0 < y) : 0 ≤ qmod x y := by
  have h : (⌊x / y⌋ : ℚ) ≤ x / y := Int.floor_le _
  have h2 : (⌊x / y⌋ : ℚ) * y ≤ x := by
    have := (le_div_iff hy).mp h
    linarith
  simp only [qmod]
  nlinarith

theorem qmod_lt (x : ℚ) {y : ℚ} (hy : 0 < y) : qmod x y < y := by
  have h : x / y < ⌊x / y⌋ + 1 := Int.lt_floor_add_one _
  have h2 : x < (⌊x / y⌋ + 1) * y := by
    have := (div_lt_iff hy).mp h
    linarith
  simp only [qmod]
  nlinarith

theorem qmod_add_mul (x y : ℚ) (k : ℤ) (hy : y ≠ 0) :
    qmod (x + y * k) y = qmod x y := by
  have hdiv : (x + y * k) / y = x / y + k := by
    field_simp
    ring
  simp only [qmod, hdiv, Int.floor_add_int]
  push_cast
  ring

theorem thetaRad_sub (a b : ℚ) : thetaRad a - thetaRad b = thetaRad (a - b) := by
  simp only [thetaRad]
  push_cast
  ring

theorem abs_thetaRad (a : ℚ) : |thetaRad a| = thetaRad |a| := by
  simp only [thetaRad]
  rw [abs_div, abs_mul, abs_of_pos Real.pi_pos]
  push_cast [abs_of_pos (show (0:ℝ) < 180 by norm_num)]
  ring_nf

theorem thetaRad_lt_iff {a b : ℚ} : thetaRad a < thetaRad b ↔ a < b := by
  have hpos : (0 : ℝ) < Real.pi / 180 := by positivity
  have ha : thetaRad a = (a : ℝ) * (Real.pi / 180) := by simp only [thetaRad]; ring
  have hb : thetaRad b = (b : ℝ) * (Real.pi / 180) := by simp only [thetaRad]; ring
  rw [ha, hb, mul_lt_mul_right hpos, Rat.cast_lt]

theorem thetaRad_le_iff {a b : ℚ} : thetaRad a ≤ thetaRad b ↔ a ≤ b := by
  have hpos : (0 : ℝ) < Real.pi / 180 := by positivity
  have ha : thetaRad a = (a : ℝ) * (Real.pi / 180) := by simp only [thetaRad]; ring
  have hb : thetaRad b = (b : ℝ) * (Real.pi / 180) := by simp only [thetaRad]; ring
  rw [ha, hb, mul_le_mul_right hpos, Rat.cast_le]

theorem pi_div_four_eq : Real.pi / 4 = thetaRad 45 := by
  simp only [thetaRad]
  push_cast
  ring

theorem pi_eq_thetaRad : Real.pi = thetaRad 180 := by
  simp only [thetaRad]
  push_cast
  ring

theorem pi_div_two_eq : Real.pi / 2 = thetaRad 90 := by
  simp only [thetaRad]
  push_cast
  ring

theorem neg_pi_div_two_eq : -(Real.pi / 2) = thetaRad (-90) := by
  simp only [thetaRad]
  push_cast
  ring

theorem deg_of_thetaRad (a : ℚ) : thetaRad a * (180 / Real.pi) = (a : ℝ) := by
  simp only [thetaRad]
  field_simp

/-- The orientation-check comparison from `find_barcodes`:
`abs(box[2, 0] - mean_bar_theta) < np.pi / 4`, stated on the exact radian
values of the two degree-carried angles. -/
def rejectProp (aBox aMean : ℚ) : Prop :=
  |thetaRad aBox - thetaRad aMean| < Real.pi / 4

theorem rejectProp_iff (a b : ℚ) : rejectProp a b ↔ |a - b| < 45 := by
  rw [rejectProp, thetaRad_sub, abs_thetaRad, pi_div_four_eq, thetaRad_lt_iff]

instance rejectPropDec (a b : ℚ) : Decidable (rejectProp a b) :=
  decidable_of_iff _ (rejectProp_iff a b).symm

/-- `_get_bounding_box(coords)` with the external cv2 calls factored out:
`rect` is the `cv2.minAreaRect` result and `boxPts` the `cv2.boxPoints`
corners.  Normalizes the angle into `[-90, 90)`, swaps width/height when the
raw width exceeds the raw height (re-deriving the angle from the raw value
via `rect[2] % 180 - 90`), and appends the rounded corner points. -/
def _get_bounding_box (rect : RawRect) (boxPts : List (ℚ × ℚ)) : BlobBox :=
  { center_x := rect.center_x
    center_y := rect.center_y
    width := if rect.width > rect.height then rect.height else rect.width
    height := if rect.width > rect.height then rect.width else rect.height
    angleDeg :=
      if rect.width > rect.height then qmod rect.angle 180 - 90
      else normalizeAngle rect.angle
    corners := boxPts.map (fun p => ((npround p.1 : ℚ), (npround p.2 : ℚ))) }

/-- Row 2, column 0 of the 7×2 record: `theta = np.pi * angle / 180`. -/
noncomputable def BlobBox.theta (b : BlobBox) : ℝ := thetaRad b.angleDeg

/-- Row 2, column 1: `rho = center_x * cos(theta) + center_y * sin(theta)`. -/
noncomputable def BlobBox.rho (b : BlobBox) : ℝ :=
  b.center_x * Real.cos b.theta + b.center_y * Real.sin b.theta

/-- The aspect filter `bar_boxes[:, 1, 1] / bar_boxes[:, 1, 0] > 10` under
numpy IEEE-754 float semantics (the source suppresses the divide warning
with `np.errstate(divide="ignore")`): for `w = 0` the quotient is `+inf`
when `h > 0` (comparison true) and `nan` when `h = 0` (comparison false);
for `w ≠ 0` the quotient is the exact ratio. -/
def heightRatioGt10 (w h : ℚ) : Bool :=
  if w = 0 then decide (0 < h) else decide (10 < h / w)

/-- The per-blob box computation plus the aspect filter of `find_barcodes`:
`bar_boxes` after `bar_boxes = bar_boxes[filter_height_ratio]`.  Each list
entry pairs a `cv2.minAreaRect` oracle result with its `cv2.boxPoints`
corners. -/
def survivingBoxes (blobData : List (RawRect × List (ℚ × ℚ))) : List BlobBox :=
  (blobData.map (fun p => _get_bounding_box p.1 p.2)).filter
    (fun b => heightRatioGt10 b.width b.height)

/-- `_cluster_bars(bar_boxes, img_size, plot)` with DBSCAN as an oracle on
the feature rows `(theta, height/img_size, center_x/img_size,
center_y/img_size)` (the angular feature is passed through its exact degree
parametrization `angleDeg`, an injective rescaling of `theta`).  Cluster
numbers are the sorted distinct labels with their member counts, as
returned by `np.unique(..., return_counts=True)`; the random display
colours and the `plot` visualization are detection-irrelevant. -/
def _cluster_bars (dbscan : List (ℚ × ℚ × ℚ × ℚ) → List ℤ)
    (bar_boxes : List BlobBox) (img_size : ℚ) (plot : Bool) :
    List Cluster × List ℤ :=
  let X := bar_boxes.map (fun b =>
    (b.angleDeg, b.height / img_size, b.center_x / img_size, b.center_y / img_size))
  let cluster_idx := dbscan X
  let numbers := List.insertionSort (· ≤ ·) cluster_idx.dedup
  (numbers.map (fun n => { number := n, count := cluster_idx.count n }), cluster_idx)

/-- `bar_boxes[np.where(cluster_idx == number)]`: the member boxes of one
cluster, by positional correspondence of boxes and labels. -/
def clusterMembers (bar_boxes : List BlobBox) (cluster_idx : List ℤ) (n : ℤ) :
    List BlobBox :=
  ((bar_boxes.zip cluster_idx).filter (fun p => decide (p.2 = n))).map Prod.fst

/-- The merged corner cloud of a cluster:
`bar_boxes[np.where(...)][:, 3:, :].reshape(-1, 2).astype(int)`. -/
def mergedCoords (bar_boxes : List BlobBox) (cluster_idx : List ℤ) (n : ℤ) :
    List (ℤ × ℤ) :=
  (clusterMembers bar_boxes cluster_idx n).flatMap
    (fun b => b.corners.map (fun p => (pyint p.1, pyint p.2)))

/-- `mean_bar_theta = np.mean(bar_boxes[np.where(...), 2, 0])`, carried in
degrees: the radian mean is exactly `thetaRad` of this value (see
`mean_thetaRad_eq`). -/
def meanBarThetaDeg (bar_boxes : List BlobBox) (cluster_idx : List ℤ) (n : ℤ) : ℚ :=
  ((clusterMembers bar_boxes cluster_idx n).map BlobBox.angleDeg).sum /
    ((clusterMembers bar_boxes cluster_idx n).length : ℚ)

/-- The macro box of a cluster: `_get_bounding_box` over the merged corner
cloud, with the `cv2.minAreaRect`/`cv2.boxPoints` pair supplied by the
oracle `minARect`. -/
def clusterBoxOf (minARect : List (ℤ × ℤ) → RawRect × List (ℚ × ℚ))
    (bar_boxes : List BlobBox) (cluster_idx : List ℤ) (n : ℤ) : BlobBox :=
  _get_bounding_box (minARect (mergedCoords bar_boxes cluster_idx n)).1
    (minARect (mergedCoords bar_boxes cluster_idx n)).2

/-- The body of the cluster loop of `find_barcodes`: skip the noise label
`-1`; reject the cluster when the macro-box theta is within `π/4` of the
mean bar theta; otherwise build the `BarcodeRect` with
`width = ceil(box[1, 1])`, `height = ceil(box[1, 0])` and
`theta = (box[2, 0] * 180 / np.pi + 180) % 180 - 90` (on the exact degree
value `box.angleDeg = box[2, 0] * 180 / np.pi`). -/
def processCluster (minARect : List (ℤ × ℤ) → RawRect × List (ℚ × ℚ))
    (bar_boxes : List BlobBox) (cluster_idx : List ℤ) (c : Cluster) :
    Option BarcodeRect :=
  if c.number = -1 then none
  else
    let box := clusterBoxOf minARect bar_boxes cluster_idx c.number
    if rejectProp box.angleDeg (meanBarThetaDeg bar_boxes cluster_idx c.number) then
      none
    else
      some { center_x := box.center_x
             center_y := box.center_y
             width := ⌈box.height⌉
             height := ⌈box.width⌉
             theta := qmod (box.angleDeg + 180) 180 - 90 }

/-- `find_barcodes(img, debug)` with the external collaborators as oracles:
`minARect` models `cv2.minAreaRect`/`cv2.boxPoints` on the merged cluster
corner clouds, `dbscan` the clustering primitive, `blobData` the per-blob
`cv2.minAreaRect`/`cv2.boxPoints` results for the MSER regions, and
`img_size = max(img.shape)`.  The `debug` flag only triggers plotting and
window side effects (pure I/O, absent from the embedding). -/
def find_barcodes (minARect : List (ℤ × ℤ) → RawRect × List (ℚ × ℚ))
    (dbscan : List (ℚ × ℚ × ℚ × ℚ) → List ℤ)
    (blobData : List (RawRect × List (ℚ × ℚ))) (img_size : ℚ) (debug : Bool) :
    List BarcodeRect :=
  let bar_boxes := survivingBoxes blobData
  if bar_boxes.length = 0 then []
  else
    let cl := _cluster_bars dbscan bar_boxes img_size debug
    cl.1.filterMap (processCluster minARect bar_boxes cl.2)

/-- `MARGIN = 5`. -/
def MARGIN : ℤ := 5

/-- `BarcodeRect.json(self)`: note the source fills the `center_x` key
from `self.center_y`. -/
def BarcodeRect.json (r : BarcodeRect) : JsonOut :=
  { center_x := r.center_y
    center_y := r.center_y
    width := r.width
    height := r.height
    theta := r.theta }

/-- `x = int(self.center_x - width / 2)` before clamping, with
`width = self.width + MARGIN`. -/
def rawCropX (r : BarcodeRect) : ℤ :=
  pyint (r.center_x - ((r.width + MARGIN : ℤ) : ℚ) / 2)

/-- `y = int(self.center_y - height / 2)` before clamping, with
`height = self.height + MARGIN`. -/
def rawCropY (r : BarcodeRect) : ℤ :=
  pyint (r.center_y - ((r.height + MARGIN : ℤ) : ℚ) / 2)

/-- The crop geometry of `BarcodeRect.extract_from(img)`: the rotation by
`theta` about the center (cv2.getRotationMatrix2D/warpAffine) keeps the
canvas at the image size `W × H`, so the returned value models the crop
window `rotated[y : y + height, x : x + width]`: first component the
clamped origin `(x, y)` with `x = min(W, max(0, int(cx - width/2)))`,
second component the resulting numpy slice extents
`(column count, row count)` of the cropped array. -/
def extract_from (r : BarcodeRect) (W H : ℕ) : (ℤ × ℤ) × (ℤ × ℤ) :=
  let width := r.width + MARGIN
  let height := r.height + MARGIN
  let x := min (W : ℤ) (max 0 (rawCropX r))
  let y := min (H : ℤ) (max 0 (rawCropY r))
  ((x, y), (max 0 (min (x + width) W - x), max 0 (min (y + height) H - y)))

theorem sum_thetaRad (l : List ℚ) :
    (l.map thetaRad).sum = Real.pi * ((l.sum : ℚ) : ℝ) / 180 := by
  induction l with
  | nil => simp
  | cons a l ih =>
    simp only [List.map_cons, List.sum_cons, ih, thetaRad]
    push_cast
    ring

/-- The radian mean `np.mean(bar_boxes[np.where(...), 2, 0])` compared by
the source is exactly `thetaRad` of the degree-carried `meanBarThetaDeg`
(both sides use junk value `0` for an empty member list). -/
theorem mean_thetaRad_eq (bar_boxes : List BlobBox) (cluster_idx : List ℤ) (n : ℤ) :
    ((clusterMembers bar_boxes cluster_idx n).map (fun b => thetaRad b.angleDeg)).sum /
        ((clusterMembers bar_boxes cluster_idx n).length : ℝ) =
      thetaRad (meanBarThetaDeg bar_boxes cluster_idx n) := by
  have h : (clusterMembers bar_boxes cluster_idx n).map (fun b => thetaRad b.angleDeg) =
      ((clusterMembers bar_boxes cluster_idx n).map BlobBox.angleDeg).map thetaRad := by
    rw [List.map_map]
    rfl
  rw [h, sum_thetaRad]
  simp only [meanBarThetaDeg, thetaRad]
  push_cast
  ring

/-- Claim C2 (code bug): `BarcodeRect.json` fills the exported `center_x`
key from the rectangle's `center_y` field (`"center_x": self.center_y`),
so the export is not field-for-field: on the rectangle with
`center_x = 1`, `center_y = 2` the exported `center_x` is `2`, not `1`. -/
theorem json_center_x_swapped_bug :
    (BarcodeRect.json ⟨1, 2, 3, 4, 5⟩).center_x = 2 ∧
    (BarcodeRect.json ⟨1, 2, 3, 4, 5⟩).center_x ≠ 1 := by
  constructor
  · rfl
  · norm_num [BarcodeRect.json]

/-- Claim C3, counterexample: a box of width `0` and height `50` does not
fail the aspect filter — numpy evaluates `50.0 / 0.0` to `+inf` (the
divide warning is suppressed), `inf > 10` is true, and the box is
retained; `survivingBoxes` keeps the corresponding blob. -/
theorem zero_width_box_retained_cex :
    heightRatioGt10 0 50 = true ∧
    survivingBoxes [(⟨3, 4, 0, 50, 0⟩, [])] = [⟨3, 4, 0, 50, 0, []⟩] := by
  constructor
  · norm_num [heightRatioGt10]
  · norm_num [survivingBoxes, _get_bounding_box, heightRatioGt10, normalizeAngle, qmod]

theorem heightRatioGt10_eq (w h : ℚ) :
    heightRatioGt10 w h =
      decide ((w = 0 ∧ 0 < h) ∨ (w ≠ 0 ∧ 10 < h / w)) := by
  by_cases hw : w = 0
  · simp [heightRatioGt10, hw]
  · simp [heightRatioGt10, hw]

/-- Claim C3, amended: the filter retains a box iff its IEEE-float ratio
`height/width` exceeds 10, which for `width = 0` means: retained iff
`height > 0` (ratio `+inf`), and the `0/0` box (ratio `nan`) is excluded;
for `width ≠ 0` it is the exact ratio test.  No error is raised: the
filter is a total Boolean function on every box. -/
theorem bar_filter_characterization (blobData : List (RawRect × List (ℚ × ℚ))) :
    survivingBoxes blobData =
      (blobData.map (fun p => _get_bounding_box p.1 p.2)).filter
        (fun b => decide ((b.width = 0 ∧ 0 < b.height) ∨
          (b.width ≠ 0 ∧ 10 < b.height / b.width))) := by
  unfold survivingBoxes
  exact List.filter_congr (fun b _ => heightRatioGt10_eq b.width b.height)

/-- Claim C5: the normalization `((a + 90) mod 180) - 90` used by the
bounding-box computation lands in `[-90, 90)` and is invariant under
adding any integer multiple of `180` to the input. -/
theorem angle_normalization_range_periodic (a : ℚ) (k : ℤ) :
    -90 ≤ normalizeAngle a ∧ normalizeAngle a < 90 ∧
    normalizeAngle (a + 180 * k) = normalizeAngle a := by
  refine ⟨?_, ?_, ?_⟩
  · have h := qmod_nonneg (a + 90) (show (0:ℚ) < 180 by norm_num)
    simp only [normalizeAngle]
    linarith
  · have h := qmod_lt (a + 90) (show (0:ℚ) < 180 by norm_num)
    simp only [normalizeAngle]
    linarith
  · simp only [normalizeAngle]
    have h : a + 180 * (k : ℚ) + 90 = (a + 90) + 180 * k := by ring
    rw [h, qmod_add_mul _ _ _ (show (180:ℚ) ≠ 0 by norm_num)]

/-- Claim C6: every box produced by `_get_bounding_box` has
`width ≤ height` and a normalized angle in `[-90, 90)` degrees, i.e.
`theta ∈ [-π/2, π/2)`; when the raw rectangle reports `width > height`
the extents are swapped and the angle is re-derived from the untransposed
raw angle as `angle mod 180 - 90`. -/
theorem bounding_box_invariant (rect : RawRect) (boxPts : List (ℚ × ℚ)) :
    (_get_bounding_box rect boxPts).width ≤ (_get_bounding_box rect boxPts).height ∧
    -90 ≤ (_get_bounding_box rect boxPts).angleDeg ∧
    (_get_bounding_box rect boxPts).angleDeg < 90 ∧
    -(Real.pi / 2) ≤ thetaRad (_get_bounding_box rect boxPts).angleDeg ∧
    thetaRad (_get_bounding_box rect boxPts).angleDeg < Real.pi / 2 ∧
    (rect.height < rect.width →
      (_get_bounding_box rect boxPts).width = rect.height ∧
      (_get_bounding_box rect boxPts).height = rect.width ∧
      (_get_bounding_box rect boxPts).angleDeg = qmod rect.angle 180 - 90) := by
  have h180 : (0:ℚ) < 180 := by norm_num
  have hdeg : -90 ≤ (_get_bounding_box rect boxPts).angleDeg ∧
      (_get_bounding_box rect boxPts).angleDeg < 90 := by
    by_cases hs : rect.width > rect.height
    · simp only [_get_bounding_box, if_pos hs]
      have h1 := qmod_nonneg rect.angle h180
      have h2 := qmod_lt rect.angle h180
      constructor <;> linarith
    · simp only [_get_bounding_box, if_neg hs, normalizeAngle]
      have h1 := qmod_nonneg (rect.angle + 90) h180
      have h2 := qmod_lt (rect.angle + 90) h180
      constructor <;> linarith
  refine ⟨?_, hdeg.1, hdeg.2, ?_, ?_, ?_⟩
  · by_cases hs : rect.width > rect.height
    · simp only [_get_bounding_box, if_pos hs]
      linarith
    · simp only [_get_bounding_box, if_neg hs]
      linarith [not_lt.mp hs]
  · rw [neg_pi_div_two_eq]
    exact thetaRad_le_iff.mpr hdeg.1
  · rw [pi_div_two_eq]
    exact thetaRad_lt_iff.mpr hdeg.2
  · intro hlt
    have hs : rect.width > rect.height := hlt
    simp [_get_bounding_box, if_pos hs]

/-- Witness for `bounding_box_invariant` at the raw rectangle
`center (0, 0)`, extents `(9, 2)`, angle `100`: the swap branch fires. -/
theorem bounding_box_invariant_witness :
    ((2 : ℚ) < 9) ∧
    ((_get_bounding_box ⟨0, 0, 9, 2, 100⟩ []).width = 2 ∧
     (_get_bounding_box ⟨0, 0, 9, 2, 100⟩ []).height = 9 ∧
     (_get_bounding_box ⟨0, 0, 9, 2, 100⟩ []).angleDeg = qmod 100 180 - 90) :=
  ⟨by norm_num,
   (bounding_box_invariant ⟨0, 0, 9, 2, 100⟩ []).2.2.2.2.2 (by norm_num)⟩

/-- The cluster list of a `find_barcodes` run (first component of
`_cluster_bars`). -/
def runClusters (dbscan : List (ℚ × ℚ × ℚ × ℚ) → List ℤ)
    (blobData : List (RawRect × List (ℚ × ℚ))) (img_size : ℚ) (debug : Bool) :
    List Cluster :=
  (_cluster_bars dbscan (survivingBoxes blobData) img_size debug).1

/-- The label list of a `find_barcodes` run (second component of
`_cluster_bars`). -/
def runIdx (dbscan : List (ℚ × ℚ × ℚ × ℚ) → List ℤ)
    (blobData : List (RawRect × List (ℚ × ℚ))) (img_size : ℚ) (debug : Bool) :
    List ℤ :=
  (_cluster_bars dbscan (survivingBoxes blobData) img_size debug).2

theorem find_barcodes_eq_filterMap
    (minARect : List (ℤ × ℤ) → RawRect × List (ℚ × ℚ))
    (dbscan : List (ℚ × ℚ × ℚ × ℚ) → List ℤ)
    (blobData : List (RawRect × List (ℚ × ℚ))) (img_size : ℚ) (debug : Bool)
    (h : (survivingBoxes blobData).length ≠ 0) :
    find_barcodes minARect dbscan blobData img_size debug =
      (runClusters dbscan blobData img_size debug).filterMap
        (processCluster minARect (survivingBoxes blobData)
          (runIdx dbscan blobData img_size debug)) := by
  simp only [find_barcodes, runClusters, runIdx, if_neg h]

/-- Claim C7: when no blob box survives the aspect-ratio filter,
`find_barcodes` returns the empty list (for every clustering and geometry
oracle, i.e. without consulting the clustering or validation stages), and
no error is raised — the function is total. -/
theorem empty_filter_returns_nil
    (minARect : List (ℤ × ℤ) → RawRect × List (ℚ × ℚ))
    (dbscan : List (ℚ × ℚ × ℚ × ℚ) → List ℤ)
    (blobData : List (RawRect × List (ℚ × ℚ))) (img_size : ℚ) (debug : Bool)
    (h : survivingBoxes blobData = []) :
    find_barcodes minARect dbscan blobData img_size debug = [] ∧
    ∀ minARect2 dbscan2,
      find_barcodes minARect2 dbscan2 blobData img_size debug = [] := by
  have hlen : (survivingBoxes blobData).length = 0 := by rw [h]; rfl
  refine ⟨?_, fun m2 d2 => ?_⟩
  · simp only [find_barcodes, if_pos hlen]
  · simp only [find_barcodes, if_pos hlen]

/-- Witness for `empty_filter_returns_nil`: a single blob whose box has
extents `(5, 8)` (aspect ratio `8/5 ≤ 10`) is filtered out, and the run
returns `[]`. -/
theorem empty_filter_returns_nil_witness :
    survivingBoxes [(⟨0, 0, 5, 8, 0⟩, [])] = [] ∧
    find_barcodes (fun _ => (⟨0, 0, 0, 0, 0⟩, [])) (fun _ => [])
      [(⟨0, 0, 5, 8, 0⟩, [])] 100 false = [] :=
  have h : survivingBoxes [(⟨0, 0, 5, 8, 0⟩, [])] = [] := by
    norm_num [survivingBoxes, _get_bounding_box, heightRatioGt10, normalizeAngle, qmod]
  ⟨h, (empty_filter_returns_nil (fun _ => (⟨0, 0, 0, 0, 0⟩, [])) (fun _ => [])
      [(⟨0, 0, 5, 8, 0⟩, [])] 100 false h).1⟩

/-- Claim C9: the returned list of `find_barcodes` is identical (same
elements in the same order, hence the same length and the same
`center_x`, `center_y`, `width`, `height`, `theta` per element) whether
`debug` is true or false: the flag only feeds the plotting and
window-display side effects, which are pure I/O. -/
theorem debug_flag_no_effect
    (minARect : List (ℤ × ℤ) → RawRect × List (ℚ × ℚ))
    (dbscan : List (ℚ × ℚ × ℚ × ℚ) → List ℤ)
    (blobData : List (RawRect × List (ℚ × ℚ))) (img_size : ℚ) :
    find_barcodes minARect dbscan blobData img_size true =
      find_barcodes minARect dbscan blobData img_size false := rfl

/-- Claim C1: for every non-noise cluster processed by `find_barcodes`,
if the macro box's theta differs from the mean bar theta by less than
`π/4` in absolute value the cluster is rejected (`processCluster` yields
`none`, so no `BarcodeRect` is emitted for it); if the difference is at
least `π/4` a `BarcodeRect` is emitted for the cluster and appears in the
returned list. -/
theorem orientation_check_threshold
    (minARect : List (ℤ × ℤ) → RawRect × List (ℚ × ℚ))
    (dbscan : List (ℚ × ℚ × ℚ × ℚ) → List ℤ)
    (blobData : List (RawRect × List (ℚ × ℚ))) (img_size : ℚ) (debug : Bool)
    (c : Cluster)
    (hlen : (survivingBoxes blobData).length ≠ 0)
    (hc : c ∈ runClusters dbscan blobData img_size debug)
    (hnn : c.number ≠ -1) :
    (|thetaRad (clusterBoxOf minARect (survivingBoxes blobData)
          (runIdx dbscan blobData img_size debug) c.number).angleDeg -
        thetaRad (meanBarThetaDeg (survivingBoxes blobData)
          (runIdx dbscan blobData img_size debug) c.number)| < Real.pi / 4 →
      processCluster minARect (survivingBoxes blobData)
        (runIdx dbscan blobData img_size debug) c = none) ∧
    (Real.pi / 4 ≤ |thetaRad (clusterBoxOf minARect (survivingBoxes blobData)
          (runIdx dbscan blobData img_size debug) c.number).angleDeg -
        thetaRad (meanBarThetaDeg (survivingBoxes blobData)
          (runIdx dbscan blobData img_size debug) c.number)| →
      ∃ r, processCluster minARect (survivingBoxes blobData)
          (runIdx dbscan blobData img_size debug) c = some r ∧
        r ∈ find_barcodes minARect dbscan blobData img_size debug) := by
  constructor
  · intro h
    have hrej : rejectProp (clusterBoxOf minARect (survivingBoxes blobData)
        (runIdx dbscan blobData img_size debug) c.number).angleDeg
        (meanBarThetaDeg (survivingBoxes blobData)
          (runIdx dbscan blobData img_size debug) c.number) := h
    simp only [processCluster, if_neg hnn, if_pos hrej]
  · intro h
    have hrej : ¬ rejectProp (clusterBoxOf minARect (survivingBoxes blobData)
        (runIdx dbscan blobData img_size debug) c.number).angleDeg
        (meanBarThetaDeg (survivingBoxes blobData)
          (runIdx dbscan blobData img_size debug) c.number) := not_lt.mpr h
    have hsome : processCluster minARect (survivingBoxes blobData)
        (runIdx dbscan blobData img_size debug) c = some
          { center_x := (clusterBoxOf minARect (survivingBoxes blobData)
              (runIdx dbscan blobData img_size debug) c.number).center_x
            center_y := (clusterBoxOf minARect (survivingBoxes blobData)
              (runIdx dbscan blobData img_size debug) c.number).center_y
            width := ⌈(clusterBoxOf minARect (survivingBoxes blobData)
              (runIdx dbscan blobData img_size debug) c.number).height⌉
            height := ⌈(clusterBoxOf minARect (survivingBoxes blobData)
              (runIdx dbscan blobData img_size debug) c.number).width⌉
            theta := qmod ((clusterBoxOf minARect (survivingBoxes blobData)
              (runIdx dbscan blobData img_size debug) c.number).angleDeg + 180) 180 - 90 } := by
      simp only [processCluster, if_neg hnn, if_neg hrej]
    refine ⟨_, hsome, ?_⟩
    rw [find_barcodes_eq_filterMap minARect dbscan blobData img_size debug hlen]
    exact List.mem_filterMap.mpr ⟨c, hc, hsome⟩

/-- Concrete scenario: one surviving bar whose normalized angle is `80`
degrees (raw minAreaRect angle `80`, extents `(1, 80)`). -/
def demoBlobData : List (RawRect × List (ℚ × ℚ)) := [(⟨1, 2, 1, 80, 80⟩, [])]

/-- Concrete geometry oracle: the macro minAreaRect of the merged corner
cloud has extents `(4, 50)` and raw angle `-85` (normalized `-85`). -/
def demoMinARect : List (ℤ × ℤ) → RawRect × List (ℚ × ℚ) :=
  fun _ => (⟨6, 7, 4, 50, -85⟩, [])

/-- Concrete clustering oracle: the single bar is labelled `0`. -/
def demoDbscan : List (ℚ × ℚ × ℚ × ℚ) → List ℤ := fun _ => [0]

/-- Witness for `orientation_check_threshold` on the concrete scenario:
one cluster with mean bar theta `80°` and macro-box theta `-85°`
(difference `165° ≥ 45°`). -/
theorem orientation_check_threshold_witness :
    ((survivingBoxes demoBlobData).length ≠ 0 ∧
     (⟨0, 1⟩ : Cluster) ∈ runClusters demoDbscan demoBlobData 100 false ∧
     (⟨0, 1⟩ : Cluster).number ≠ -1) ∧
    ((|thetaRad (clusterBoxOf demoMinARect (survivingBoxes demoBlobData)
          (runIdx demoDbscan demoBlobData 100 false) 0).angleDeg -
        thetaRad (meanBarThetaDeg (survivingBoxes demoBlobData)
          (runIdx demoDbscan demoBlobData 100 false) 0)| < Real.pi / 4 →
      processCluster demoMinARect (survivingBoxes demoBlobData)
        (runIdx demoDbscan demoBlobData 100 false) ⟨0, 1⟩ = none) ∧
     (Real.pi / 4 ≤ |thetaRad (clusterBoxOf demoMinARect (survivingBoxes demoBlobData)
          (runIdx demoDbscan demoBlobData 100 false) 0).angleDeg -
        thetaRad (meanBarThetaDeg (survivingBoxes demoBlobData)
          (runIdx demoDbscan demoBlobData 100 false) 0)| →
      ∃ r, processCluster demoMinARect (survivingBoxes demoBlobData)
          (runIdx demoDbscan demoBlobData 100 false) ⟨0, 1⟩ = some r ∧
        r ∈ find_barcodes demoMinARect demoDbscan demoBlobData 100 false)) :=
  have h1 : (survivingBoxes demoBlobData).length ≠ 0 := by
    norm_num [survivingBoxes, demoBlobData, _get_bounding_box, heightRatioGt10,
      normalizeAngle, qmod]
  have h2 : (⟨0, 1⟩ : Cluster) ∈ runClusters demoDbscan demoBlobData 100 false := by
    norm_num [runClusters, _cluster_bars, survivingBoxes, demoBlobData, demoDbscan,
      _get_bounding_box, heightRatioGt10, normalizeAngle, qmod, List.dedup,
      List.insertionSort]
  have h3 : (⟨0, 1⟩ : Cluster).number ≠ -1 := by decide
  ⟨⟨h1, h2, h3⟩,
    orientation_check_threshold demoMinARect demoDbscan demoBlobData 100 false
      ⟨0, 1⟩ h1 h2 h3⟩

/-- Claim C4: for every accepted cluster the emitted `BarcodeRect` takes
the macro box's center, `width = ceil` of the box's second extent,
`height = ceil` of the first extent (axes swapped relative to the
perpendicular-line box), and
`theta = ((macro_theta·180/π + 180) mod 180) - 90 ∈ [-90, 90)`; the final
conjunct certifies that `macro_theta·180/π` is exactly the degree value
`angleDeg` the formula is applied to. -/
theorem accepted_cluster_rect_fields
    (minARect : List (ℤ × ℤ) → RawRect × List (ℚ × ℚ))
    (bar_boxes : List BlobBox) (cluster_idx : List ℤ) (c : Cluster)
    (hnn : c.number ≠ -1)
    (hacc : ¬ rejectProp (clusterBoxOf minARect bar_boxes cluster_idx c.number).angleDeg
      (meanBarThetaDeg bar_boxes cluster_idx c.number)) :
    processCluster minARect bar_boxes cluster_idx c = some
      { center_x := (clusterBoxOf minARect bar_boxes cluster_idx c.number).center_x
        center_y := (clusterBoxOf minARect bar_boxes cluster_idx c.number).center_y
        width := ⌈(clusterBoxOf minARect bar_boxes cluster_idx c.number).height⌉
        height := ⌈(clusterBoxOf minARect bar_boxes cluster_idx c.number).width⌉
        theta := qmod ((clusterBoxOf minARect bar_boxes cluster_idx c.number).angleDeg
          + 180) 180 - 90 } ∧
    -90 ≤ qmod ((clusterBoxOf minARect bar_boxes cluster_idx c.number).angleDeg
      + 180) 180 - 90 ∧
    qmod ((clusterBoxOf minARect bar_boxes cluster_idx c.number).angleDeg
      + 180) 180 - 90 < 90 ∧
    thetaRad (clusterBoxOf minARect bar_boxes cluster_idx c.number).angleDeg *
        (180 / Real.pi) =
      ((clusterBoxOf minARect bar_boxes cluster_idx c.number).angleDeg : ℝ) := by
  refine ⟨?_, ?_, ?_, deg_of_thetaRad _⟩
  · simp only [processCluster, if_neg hnn, if_neg hacc]
  · have h := qmod_nonneg ((clusterBoxOf minARect bar_boxes cluster_idx c.number).angleDeg
      + 180) (show (0:ℚ) < 180 by norm_num)
    linarith
  · have h := qmod_lt ((clusterBoxOf minARect bar_boxes cluster_idx c.number).angleDeg
      + 180) (show (0:ℚ) < 180 by norm_num)
    linarith

/-- Witness for `accepted_cluster_rect_fields`: the single-bar cluster
with bar theta `80°` and macro box `center (6, 7)`, extents `(4, 50)`,
theta `-85°` is accepted and yields
`BarcodeRect(6, 7, 50, 4, 5)`. -/
theorem accepted_cluster_rect_fields_witness :
    (((⟨0, 1⟩ : Cluster).number ≠ -1) ∧
     ¬ rejectProp (clusterBoxOf demoMinARect [⟨1, 2, 1, 80, 80, []⟩] [0]
         0).angleDeg (meanBarThetaDeg [⟨1, 2, 1, 80, 80, []⟩] [0] 0)) ∧
    (processCluster demoMinARect [⟨1, 2, 1, 80, 80, []⟩] [0] ⟨0, 1⟩ = some
      { center_x := (clusterBoxOf demoMinARect [⟨1, 2, 1, 80, 80, []⟩] [0] 0).center_x
        center_y := (clusterBoxOf demoMinARect [⟨1, 2, 1, 80, 80, []⟩] [0] 0).center_y
        width := ⌈(clusterBoxOf demoMinARect [⟨1, 2, 1, 80, 80, []⟩] [0] 0).height⌉
        height := ⌈(clusterBoxOf demoMinARect [⟨1, 2, 1, 80, 80, []⟩] [0] 0).width⌉
        theta := qmod ((clusterBoxOf demoMinARect [⟨1, 2, 1, 80, 80, []⟩] [0] 0).angleDeg
          + 180) 180 - 90 } ∧
     -90 ≤ qmod ((clusterBoxOf demoMinARect [⟨1, 2, 1, 80, 80, []⟩] [0] 0).angleDeg
       + 180) 180 - 90 ∧
     qmod ((clusterBoxOf demoMinARect [⟨1, 2, 1, 80, 80, []⟩] [0] 0).angleDeg
       + 180) 180 - 90 < 90 ∧
     thetaRad (clusterBoxOf demoMinARect [⟨1, 2, 1, 80, 80, []⟩] [0] 0).angleDeg *
         (180 / Real.pi) =
       ((clusterBoxOf demoMinARect [⟨1, 2, 1, 80, 80, []⟩] [0] 0).angleDeg : ℝ)) :=
  have h1 : (⟨0, 1⟩ : Cluster).number ≠ -1 := by decide
  have h2 : ¬ rejectProp (clusterBoxOf demoMinARect [⟨1, 2, 1, 80, 80, []⟩] [0]
      0).angleDeg (meanBarThetaDeg [⟨1, 2, 1, 80, 80, []⟩] [0] 0) := by
    norm_num [clusterBoxOf, mergedCoords, clusterMembers, meanBarThetaDeg,
      demoMinARect, _get_bounding_box, normalizeAngle, qmod, rejectProp_iff]
  ⟨⟨h1, h2⟩, accepted_cluster_rect_fields demoMinARect [⟨1, 2, 1, 80, 80, []⟩] [0]
    ⟨0, 1⟩ h1 h2⟩

/-- Claim C10: the orientation check is a plain absolute difference with
no modulo-π wrap-around: a cluster whose mean bar theta is `80°` (near
`+π/2`) and whose macro-box theta is `-85°` (near `-π/2`) has true
angular separation `15° < 45°` modulo `π` (`π - |Δ| < π/4`), yet the raw
absolute difference `165°` exceeds `π/4`, so the cluster is accepted and
its `BarcodeRect` is emitted by `find_barcodes`. -/
theorem wraparound_accepted_example :
    meanBarThetaDeg [⟨1, 2, 1, 80, 80, []⟩] [0] 0 = 80 ∧
    (clusterBoxOf demoMinARect [⟨1, 2, 1, 80, 80, []⟩] [0] 0).angleDeg = -85 ∧
    Real.pi - |thetaRad (-85) - thetaRad 80| < Real.pi / 4 ∧
    Real.pi / 4 < |thetaRad (-85) - thetaRad 80| ∧
    ¬ rejectProp (-85) 80 ∧
    processCluster demoMinARect [⟨1, 2, 1, 80, 80, []⟩] [0] ⟨0, 1⟩ =
      some ⟨6, 7, 50, 4, 5⟩ ∧
    find_barcodes demoMinARect demoDbscan demoBlobData 100 false =
      [⟨6, 7, 50, 4, 5⟩] := by
  have habs : |thetaRad (-85) - thetaRad 80| = thetaRad 165 := by
    rw [thetaRad_sub, abs_thetaRad]
    norm_num
  refine ⟨?_, ?_, ?_, ?_, ?_, ?_, ?_⟩
  · norm_num [meanBarThetaDeg, clusterMembers]
  · norm_num [clusterBoxOf, mergedCoords, clusterMembers, demoMinARect,
      _get_bounding_box, normalizeAngle, qmod]
  · rw [habs, pi_div_four_eq, pi_eq_thetaRad, thetaRad_sub]
    exact thetaRad_lt_iff.mpr (by norm_num)
  · rw [habs, pi_div_four_eq]
    exact thetaRad_lt_iff.mpr (by norm_num)
  · rw [rejectProp_iff]
    norm_num
  · norm_num [processCluster, clusterBoxOf, mergedCoords, clusterMembers,
      meanBarThetaDeg, demoMinARect, _get_bounding_box, normalizeAngle, qmod,
      rejectProp_iff]
  · norm_num [find_barcodes, survivingBoxes, demoBlobData, demoMinARect, demoDbscan,
      _get_bounding_box, heightRatioGt10, _cluster_bars, processCluster,
      clusterBoxOf, mergedCoords, clusterMembers, meanBarThetaDeg, normalizeAngle,
      qmod, rejectProp_iff, List.dedup, List.insertionSort, List.filterMap_cons,
      List.filterMap_nil]

/-- Claim C8, counterexample: the crop origin is clamped with
`min(img.shape[1], max(0, x))`, an inclusive upper bound, so it can equal
`image_width` and is therefore not confined to `[0, image_width)`: for the
rectangle with `center_x = 100`, `width = height = 0` on a `10 × 10`
image, the clamped x-origin is exactly `10`. -/
theorem crop_origin_clamp_cex :
    (extract_from ⟨100, 3, 0, 0, 0⟩ 10 10).1.1 = 10 ∧
    ¬ ((extract_from ⟨100, 3, 0, 0, 0⟩ 10 10).1.1 < 10) := by
  have h : (extract_from ⟨100, 3, 0, 0, 0⟩ 10 10).1.1 = 10 := by
    norm_num [extract_from, rawCropX, rawCropY, pyint, MARGIN]
  exact ⟨h, by rw [h]; exact lt_irrefl 10⟩

/-- Claim C8, amended: the crop origin of `extract_from` is clamped into
the closed box `[0, image_width] × [0, image_height]` (not the half-open
one), and whenever the requested `(width + 5, height + 5)` window lies
fully inside the image the returned crop extents equal exactly
`(width + 5, height + 5)`. -/
theorem extract_crop_clamp_and_dims (r : BarcodeRect) (W H : ℕ) :
    (0 ≤ (extract_from r W H).1.1 ∧ (extract_from r W H).1.1 ≤ (W : ℤ) ∧
     0 ≤ (extract_from r W H).1.2 ∧ (extract_from r W H).1.2 ≤ (H : ℤ)) ∧
    (0 ≤ r.width → 0 ≤ r.height →
     0 ≤ rawCropX r → rawCropX r + (r.width + MARGIN) ≤ (W : ℤ) →
     0 ≤ rawCropY r → rawCropY r + (r.height + MARGIN) ≤ (H : ℤ) →
     (extract_from r W H).2 = (r.width + MARGIN, r.height + MARGIN)) := by
  have hM : MARGIN = 5 := rfl
  constructor
  · simp only [extract_from]
    refine ⟨?_, ?_, ?_, ?_⟩ <;> omega
  · intro hw hh hx1 hx2 hy1 hy2
    rw [hM] at hx2 hy2
    simp only [extract_from, hM, Prod.mk.injEq]
    constructor <;> omega

/-- Witness for `extract_crop_clamp_and_dims`: the rectangle
`center (50, 50)`, `width 20`, `height 10` on a `100 × 100` image is the
unclamped case and yields crop extents `(25, 15)`. -/
theorem extract_crop_clamp_and_dims_witness :
    ((0 : ℤ) ≤ 20 ∧ (0 : ℤ) ≤ 10 ∧
     0 ≤ rawCropX ⟨50, 50, 20, 10, 0⟩ ∧
     rawCropX ⟨50, 50, 20, 10, 0⟩ + (20 + MARGIN) ≤ (100 : ℤ) ∧
     0 ≤ rawCropY ⟨50, 50, 20, 10, 0⟩ ∧
     rawCropY ⟨50, 50, 20, 10, 0⟩ + (10 + MARGIN) ≤ (100 : ℤ)) ∧
    (extract_from ⟨50, 50, 20, 10, 0⟩ 100 100).2 = (20 + MARGIN, 10 + MARGIN) :=
  have hx : rawCropX (⟨50, 50, 20, 10, 0⟩ : BarcodeRect) = 37 := by
    norm_num [rawCropX, pyint, MARGIN]
  have hy : rawCropY (⟨50, 50, 20, 10, 0⟩ : BarcodeRect) = 42 := by
    norm_num [rawCropY, pyint, MARGIN]
  ⟨⟨by norm_num, by norm_num, by rw [hx]; norm_num,
    by rw [hx]; norm_num [MARGIN], by rw [hy]; norm_num,
    by rw [hy]; norm_num [MARGIN]⟩,
   (extract_crop_clamp_and_dims ⟨50, 50, 20, 10, 0⟩ 100 100).2
     (by norm_num) (by norm_num)
     (by rw [hx]; norm_num) (by rw [hx]; norm_num [MARGIN])
     (by rw [hy]; norm_num) (by rw [hy]; norm_num [MARGIN])⟩
